import Mathlib

/-!
Verification development for the esp-docs `docs_embed` extension.

The definitions below are shallow embeddings of the Python sources:

* `src/esp_docs/generic_extensions/docs_embed/tool/wokwi_tool.py`
  (class `DiagramSync` and the module-level `target_to_boards` table),
* `src/esp_docs/generic_extensions/docs_embed/sphinx/directives.py`
  (`WokwiTabsDirective`, `WokwiExampleDirective`),
* `src/esp_docs/generic_extensions/docs_embed/sphinx/wokwi_toml.py`
  (`WokwiTomlDirective`),
* `src/esp_docs/generic_extensions/wokwi_embed copy/helpers.py` (`slug_lower`).

Python `None`-or-string values are modelled as `Option String` where
`none` is `None` and `some ""` is the empty (falsy) string.  Python dicts
that the code iterates in insertion order are modelled as association
lists.  JSON numbers appearing in the diagrams are integers in the code,
so they are modelled as `Int`.
-/

namespace EspDocs

/-! ### Python value helpers -/

/-- Python truthiness of an optional string: `None` and `""` are falsy. -/
def pyFalsy : Option String → Bool
  | none => true
  | some s => s = ""

/-- Python `a or b` on optional strings. -/
def pyOr (a b : Option String) : Option String :=
  match a with
  | none => b
  | some s => if s = "" then b else some s

/-- Python `a or d` where the final alternative is a plain string. -/
def pyGetD (a : Option String) (d : String) : String :=
  match a with
  | none => d
  | some s => if s = "" then d else s

/-- Keep an optional string only when it is Python-truthy. -/
def truthyOpt (a : Option String) : Option String :=
  if pyFalsy a then none else a

/-- Drop matching characters from the end of a character list. -/
def dropEndWhile (p : Char → Bool) (l : List Char) : List Char :=
  (l.reverse.dropWhile p).reverse

/-- Drop matching characters from both ends (Python `str.strip`). -/
def stripWhile (p : Char → Bool) (l : List Char) : List Char :=
  dropEndWhile p (l.dropWhile p)

/-- Python `s.rstrip(c)` for a single strip character. -/
def rstripChar (s : String) (c : Char) : String :=
  String.mk (dropEndWhile (fun x => x == c) s.data)

/-- Python `s.lstrip(c)` for a single strip character. -/
def lstripChar (s : String) (c : Char) : String :=
  String.mk (s.data.dropWhile (fun x => x == c))

/-- Python `s[n:]`. -/
def sDrop (s : String) (n : Nat) : String := String.mk (s.data.drop n)

/-- Python `len(s)`. -/
def sLen (s : String) : Nat := s.data.length

/-- Python `s.upper()` (ASCII model). -/
def sToUpper (s : String) : String := String.mk (s.data.map Char.toUpper)

/-- Python `s.lower()` (ASCII model). -/
def sToLower (s : String) : String := String.mk (s.data.map Char.toLower)

/-- Python `s.startswith(t)`. -/
def sStartsWith (s t : String) : Bool := t.data.isPrefixOf s.data

/-- Python `s.endswith(t)`. -/
def sEndsWith (s t : String) : Bool := t.data.isSuffixOf s.data

/-- Model of the regex class `\s` (Python whitespace). -/
def isSpaceChar (c : Char) : Bool := c.isWhitespace

/-! ### `slug_lower` from `wokwi_embed copy/helpers.py`

```python
def slug_lower(name: str) -> str:
    s = re.sub(r"\s+", "-", name.strip().lower())
    s = re.sub(r"[^a-z0-9\-]", "-", s)
    s = re.sub(r"-{2,}", "-", s).strip("-")
    return s
```
-/

/-- The character class `[a-z0-9-]`. -/
def slugAllowed (c : Char) : Bool :=
  (97 ≤ c.toNat && c.toNat ≤ 122) || (48 ≤ c.toNat && c.toNat ≤ 57) || c == '-'

/-- `re.sub(p+, "-", l)`: replace every maximal run of characters matching
`p` by a single hyphen.  (For `p` = hyphen this also models `re.sub(r"-{2,}", "-", .)`,
because replacing a singleton hyphen run by a hyphen is the identity.) -/
def collapseRuns (p : Char → Bool) : List Char → List Char
  | [] => []
  | c :: rest =>
    if p c then '-' :: collapseRuns p (rest.dropWhile p)
    else c :: collapseRuns p rest
termination_by l => l.length
decreasing_by
  · have h := (@List.dropWhile_sublist _ rest p).length_le
    simp only [List.length_cons]
    omega
  · simp only [List.length_cons]
    omega

/-- `re.sub(r"[^a-z0-9\-]", "-", ...)` acting on one character. -/
def slugCharFix (c : Char) : Char := if slugAllowed c then c else '-'

/-- `slug_lower` from `helpers.py`. -/
def slug_lower (name : String) : String :=
  let s0 := (stripWhile isSpaceChar name.data).map Char.toLower
  let s1 := collapseRuns isSpaceChar s0
  let s2 := s1.map slugCharFix
  let s3 := collapseRuns (fun c => c == '-') s2
  String.mk (stripWhile (fun c => c == '-') s3)

/-- No two adjacent hyphens. -/
def noTwoHyphens : List Char → Bool
  | a :: b :: rest => !(a == '-' && b == '-') && noTwoHyphens (b :: rest)
  | _ => true

/-- The first character, if any, is not a hyphen. -/
def headNotHyphen (l : List Char) : Bool :=
  match l.head? with
  | some c => !(c == '-')
  | none => true

/-- The last character, if any, is not a hyphen. -/
def lastNotHyphen (l : List Char) : Bool :=
  match l.getLast? with
  | some c => !(c == '-')
  | none => true

/-! ### Data model of `wokwi_tool.py` -/

/-- A diagram part: `{"type": ..., "id": ..., "top": ..., "left": ..., "attrs": {...}}`. -/
structure Part where
  type : String
  id : String
  top : Int
  left : Int
  attrs : List (String × String)
deriving DecidableEq

/-- A connection `[endpointA, endpointB, routeColor, routePoints]`. -/
structure Conn where
  a : String
  b : String
  color : String
  points : List String
deriving DecidableEq

/-- A full diagram document. -/
structure Diagram where
  version : Int
  author : String
  editor : String
  parts : List Part
  connections : List Conn
  dependencies : List (String × String)
deriving DecidableEq

/-- The author-content override stored per target in the manifest
(`ci.json` `upload-binary.diagram.<target>`).  An empty `dependencies`
list models both an absent and an empty JSON mapping (both are falsy). -/
structure Override where
  parts : List Part
  connections : List Conn
  dependencies : List (String × String)
deriving DecidableEq

def emptyOverride : Override := ⟨[], [], []⟩

/-- `target_to_boards` from `wokwi_tool.py`. -/
def target_to_boards : List (String × String) :=
  [("esp32", "board-esp32-devkit-c-v4"),
   ("esp32c3", "board-esp32-c3-devkitm-1"),
   ("esp32c6", "board-esp32-c6-devkitc-1"),
   ("esp32h2", "board-esp32-h2-devkitm-1"),
   ("esp32p4", "board-esp32-p4-function-ev"),
   ("esp32s2", "board-esp32-s2-devkitm-1"),
   ("esp32s3", "board-esp32-s3-devkitc-1")]

/-- `self.serial_connections` from `DiagramSync.__init__`. -/
def serial_connections : List Conn :=
  [⟨"esp:RX", "$serialMonitor:TX", "", []⟩,
   ⟨"esp:TX", "$serialMonitor:RX", "", []⟩]

/-- The first three elements of a connection (`connection[:3]`). -/
def connTriple (c : Conn) : String × String × String := (c.a, c.b, c.color)

/-- `DiagramSync.is_serial_connection`:
`connection[:3] in [conn[:3] for conn in self.serial_connections]`. -/
def is_serial_connection (c : Conn) : Bool :=
  (serial_connections.map connTriple).contains (connTriple c)

/-- `DiagramSync.filter_parts`: drop parts whose type starts with `"board-"`. -/
def filter_parts (parts : List Part) : List Part :=
  parts.filter (fun part => !(sStartsWith part.type "board-"))

/-- `DiagramSync.filter_connections`: drop serial monitor connections. -/
def filter_connections (connections : List Conn) : List Conn :=
  connections.filter (fun conn => !(is_serial_connection conn))

/-- `DiagramSync.create_default_diagram`.  Returns `none` where the Python
raises `ValueError` for a platform without a board mapping. -/
def create_default_diagram (platform : String) : Option Diagram :=
  let rx_pin := if platform = "esp32p4" then "38" else "RX"
  let tx_pin := if platform = "esp32p4" then "37" else "TX"
  match target_to_boards.lookup platform with
  | none => none
  | some board_type =>
      some
        { version := 1
          author := "Espressif Systems"
          editor := "wokwi"
          parts := [⟨board_type, "esp", 0, 0, []⟩]
          connections :=
            [⟨"esp:" ++ tx_pin, "$serialMonitor:RX", "", []⟩,
             ⟨"esp:" ++ rx_pin, "$serialMonitor:TX", "", []⟩]
          dependencies := [] }

/-- The pure diagram construction of `DiagramSync.generate_diagram`
(the body between `create_default_diagram` and `save_json`): append
override parts/connections when non-empty (Python walrus truthiness)
and replace dependencies when non-empty. -/
def generate_diagram (platform : String) (ov : Override) : Option Diagram :=
  match create_default_diagram platform with
  | none => none
  | some d0 =>
      let d1 := if ov.parts ≠ [] then { d0 with parts := d0.parts ++ ov.parts } else d0
      let d2 := if ov.connections ≠ [] then
          { d1 with connections := d1.connections ++ ov.connections } else d1
      some (if ov.dependencies ≠ [] then { d2 with dependencies := ov.dependencies } else d2)

/-- The override-extraction filter used by `generate_ci_from_diagram`
(lines 205–207): filter parts and connections, pass dependencies through. -/
def extract_override (d : Diagram) : Override :=
  ⟨filter_parts d.parts, filter_connections d.connections, d.dependencies⟩

/-- The `upload-binary` section of `ci.json`.  `some ub` in `CiDoc` below
models a present, non-empty section; an absent (or empty, hence falsy)
section is `none`. -/
structure UploadBinary where
  targets : List String
  diagram : List (String × Override)
  description : Option String
deriving DecidableEq

def emptyUploadBinary : UploadBinary := ⟨[], [], none⟩

/-- The `ci.json` document (only the `upload-binary` key is relevant here). -/
structure CiDoc where
  uploadBinary : Option UploadBinary
deriving DecidableEq

/-- Replace the value at a key of an insertion-ordered mapping (Python dict
assignment): an existing key keeps its position, a new key is appended. -/
def setEntry (m : List (String × Override)) (k : String) (v : Override) :
    List (String × Override) :=
  if (m.lookup k).isSome then m.map (fun kv => if kv.1 = k then (k, v) else kv)
  else m ++ [(k, v)]

/-- One iteration of the platform loop of
`DiagramSync.generate_ci_from_diagram` (lines 192–226): append the
platform to `targets` if absent; if its diagram file exists, extract the
override and store it unless it is entirely empty. -/
def processPlatform (ub : UploadBinary) (plat : String) (diag : Option Diagram) :
    UploadBinary :=
  let ub1 := if plat ∈ ub.targets then ub else { ub with targets := ub.targets ++ [plat] }
  match diag with
  | none => ub1
  | some d =>
      let ov := extract_override d
      if ov.parts = [] ∧ ov.connections = [] ∧ ov.dependencies = [] then ub1
      else { ub1 with diagram := setEntry ub1.diagram plat ov }

/-- `DiagramSync.generate_ci_from_diagram` as a pure function.
Returns the `ci.json` document that gets written (if any) and whether the
`"ci.json already has 'upload-binary' section"` warning fired.  Note the
final write is `save_json(ci_file, ci_data, True)` — unconditional. -/
def generate_ci_from_diagram (platformArg : Option String)
    (diagramPlatforms : List String) (ciFileExists : Bool) (existingCi : CiDoc)
    (override : Bool) (lookup : String → Option Diagram) : Option CiDoc × Bool :=
  let platforms := match platformArg with
    | some p => [p]
    | none => diagramPlatforms
  if platforms = [] then (none, false)
  else
    let ciData := if ciFileExists then existingCi else ⟨none⟩
    let warned := ciFileExists && ciData.uploadBinary.isSome && !override
    let ub0 := ciData.uploadBinary.getD emptyUploadBinary
    let ub := platforms.foldl (fun u p => processPlatform u p (lookup p)) ub0
    (some { ciData with uploadBinary := some ub }, warned)

/-- Outcome of a guarded file write. -/
structure SaveOutcome where
  wrote : Bool
  warned : Bool
deriving DecidableEq

/-- `DiagramSync.save_json`: skip (with a warning) when the file exists and
`override` is not set, otherwise write. -/
def save_json (fileExists override : Bool) : SaveOutcome :=
  if fileExists && !override then ⟨false, true⟩ else ⟨true, false⟩

/-- The write behaviour of `DiagramSync.generate_diagram`: an early
guarded return, then `save_json(..., True)`. -/
def generate_diagram_write (fileExists override : Bool) : SaveOutcome :=
  if fileExists && !override then ⟨false, true⟩ else save_json fileExists true

/-- `DiagramSync.platform_to_chipset`.  `none` models the `ValueError`. -/
def platform_to_chipset (platform : String) : Option String :=
  if platform = "esp32" then some "ESP32"
  else if sStartsWith platform "esp32" && sLen (sDrop platform 5) = 2 then
    some ("ESP32-" ++ sToUpper (sDrop platform 5))
  else none

/-- The list comprehension `[self.platform_to_chipset(p) for p in platforms]`:
the first failing platform raises. -/
def allChipsets : List String → Except String (List String)
  | [] => .ok []
  | p :: rest =>
      match platform_to_chipset p with
      | none => .error p
      | some c =>
          match allChipsets rest with
          | .error q => .error q
          | .ok cs => .ok (c :: cs)

/-- Result of `DiagramSync.generate_launchpad_config`. -/
inductive LpResult where
  | skippedExists
  | errorNoCi
  | skippedNoPlatforms
  | raised (platform : String)
  | written (lines : List String)
deriving DecidableEq

def quoteD (s : String) : String := "\"" ++ s ++ "\""

/-- `DiagramSync.generate_launchpad_config` as a pure function over its
file-system inputs.  `projectName` is `self.base_path.name` and
`basePathStr` is `str(self.base_path)` (used in the README URL). -/
def generate_launchpad_config (projectName basePathStr : String)
    (storageUrl0 repoUrl0 : String) (configExists override ciExists readmeExists : Bool)
    (targets : List String) (description : Option String) : LpResult :=
  let storageUrl := rstripChar storageUrl0 '/'
  let repoUrl := rstripChar repoUrl0 '/'
  if configExists && !override then .skippedExists
  else if !ciExists then .errorNoCi
  else if targets = [] then .skippedNoPlatforms
  else
    match allChipsets targets with
    | .error p => .raised p
    | .ok chipsets =>
        let headLines : List String :=
          ["esp_toml_version = 1.0",
           "",
           "firmware_images_url = " ++ quoteD storageUrl,
           "",
           "# Apps that you support and for which the binaries are available to publish.",
           "supported_apps = [" ++ quoteD projectName ++ "]",
           ""]
        let readmeLines : List String :=
          if readmeExists then
            ["config_readme_url = " ++ quoteD (repoUrl ++ "/" ++ basePathStr ++ "/README.md")]
          else []
        let imageLines : List String :=
          chipsets.map (fun c =>
            let lc := sToLower c
            "image." ++ lc ++ " = " ++ quoteD (projectName ++ "-" ++ lc ++ ".bin"))
        let descLines : List String :=
          match truthyOpt description with
          | some dsc => ["description = " ++ quoteD dsc]
          | none => []
        .written (headLines ++ readmeLines ++ imageLines ++ descLines)

/-- Convenience accessor: the lines written by a successful
`generate_launchpad_config` run, else `[]`. -/
def lpLines (r : LpResult) : List String :=
  match r with
  | .written ls => ls
  | _ => []

/-- Whether a `generate_launchpad_config` run produced a file. -/
def lpWritten (r : LpResult) : Bool :=
  match r with
  | .written _ => true
  | _ => false

/-! ### Data model of `sphinx/directives.py` -/

/-- The attribute bag of a `WokwiNode` (only the fields the directives
read or write). -/
structure WokwiData where
  tab_label : Option String
  title : Option String
  firmware : Option String
  diagram : Option String
  width : Option String
  height : Option String
  loading : Option String
  allowfullscreen : Bool
  classes : List String
  suppress_header : Bool
  from_toml : Bool
  toml_url : Option String
deriving DecidableEq

/-- A plain `WokwiData` with all optional fields unset. -/
def blankWokwi : WokwiData :=
  ⟨none, none, none, none, none, none, none, false, [], false, false, none⟩

/-- The docutils child nodes `WokwiTabsDirective._collect_panels` inspects:
`WokwiNode`, `nodes.target` (with its `names` list), `nodes.literal_block`,
and anything else. -/
inductive DocNode where
  | wokwi (w : WokwiData)
  | targetRef (names : List String)
  | literalBlock (text lang : String)
  | other
deriving DecidableEq

def isTargetNode : DocNode → Bool
  | .targetRef _ => true
  | _ => false

/-- A `TabPanelNode` as built by `make_panel` / the example directive. -/
structure Panel where
  label : String
  active : Bool
  children : List DocNode
  panel_id : Option String
deriving DecidableEq

/-- `make_panel` from `_collect_panels`. -/
def make_panel (label : String) (content : List DocNode) (active : Bool) : Panel :=
  ⟨label, active, content, none⟩

def sq (s : String) : String := "\x27" ++ s ++ "\x27"

/-- `"wokwi-tabs: target '<label>' has no following content node."` -/
def targetNoContentMsg (label : String) : String :=
  "wokwi-tabs: target " ++ sq label ++ " has no following content node."

/-- `"wokwi-tabs: child #<idx> is missing required :firmware: URL."` -/
def firmwareErrMsg (idx : Nat) : String :=
  "wokwi-tabs: child #" ++ toString idx ++ " is missing required :firmware: URL."

/-- The `"wokwi-tabs: no child blocks found. ..."` error of `run`. -/
def noChildMsg : String :=
  "wokwi-tabs: no child blocks found. Add \x27.. wokwi::\x27, \x27.. wokwi-toml::\x27, \x27.. code-block::\x27, or \x27.. literalinclude::\x27 with :name:"

/-- The `while i < len(children)` scan of `_collect_panels` (lines 93–125).
`panels`/`errors` are the accumulators of the Python loop; the
`j = i + 1; while … isinstance(children[j], nodes.target)` inner scan is
`List.dropWhile isTargetNode`; `break` returns the accumulators as they
stand. -/
def collectScan : List DocNode → List Panel → List String → List Panel × List String
  | [], panels, errors => (panels, errors)
  | cur :: rest, panels, errors =>
    match cur with
    | DocNode.wokwi w =>
        let n := panels.length + 1
        let label := pyGetD (pyOr w.tab_label w.title) ("Wokwi " ++ toString n)
        collectScan rest (panels ++ [make_panel label [cur] panels.isEmpty]) errors
    | DocNode.targetRef names =>
        match names with
        | [] => collectScan rest panels errors
        | label :: _ =>
            match h : rest.dropWhile isTargetNode with
            | [] => (panels, errors ++ [targetNoContentMsg label])
            | content :: rest2 =>
                collectScan rest2
                  (panels ++ [make_panel label [content] panels.isEmpty]) errors
    | DocNode.literalBlock _ _ =>
        let n := (panels.filter (fun p => sStartsWith p.label "Code")).length + 1
        collectScan rest (panels ++ [make_panel ("Code " ++ toString n) [cur] panels.isEmpty])
          errors
    | DocNode.other => collectScan rest panels errors
termination_by l _ _ => l.length
decreasing_by
  all_goals first
    | (simp only [List.length_cons]; omega)
    | (have h1 := (@List.dropWhile_sublist _ rest isTargetNode).length_le
       rw [h] at h1
       simp only [List.length_cons] at h1 ⊢
       omega)

/-- `json_prefix_local` (lines 127–129): per-call option, else the
config-wide default, right-stripped of `/` when truthy. -/
def localJsonPfx (optPfx cfgPfx : Option String) : Option String :=
  match truthyOpt (pyOr optPfx cfgPfx) with
  | some s => some (rstripChar s '/')
  | none => none

/-- One iteration of the validation/backfill loop of `_collect_panels`
(lines 131–143): a missing-firmware error for a panel wrapping a single
`WokwiNode`, the diagram-URL backfill, and `suppress_header = True`. -/
def validateOne (idx : Nat) (jpl : Option String) (p : Panel) : Panel × Option String :=
  match p.children with
  | [DocNode.wokwi w] =>
      let err := if pyFalsy w.firmware then some (firmwareErrMsg idx) else none
      let w1 :=
        if pyFalsy w.diagram && !(pyFalsy jpl) then
          let slug := slug_lower (pyGetD (pyOr (some p.label) w.tab_label)
            ("wokwi-" ++ toString idx))
          { w with diagram := some (jpl.getD "" ++ "/diagram-" ++ slug ++ ".json") }
        else w
      ({ p with children := [DocNode.wokwi { w1 with suppress_header := true }] }, err)
  | _ => (p, none)

/-- `WokwiTabsDirective._collect_panels`. -/
def collect_panels (children : List DocNode) (optPfx cfgPfx : Option String) :
    List Panel × List String :=
  let scanned := collectScan children [] []
  let jpl := localJsonPfx optPfx cfgPfx
  let vs := scanned.1.enum.map (fun ip => validateOne (ip.1 + 1) jpl ip.2)
  (vs.map Prod.fst, scanned.2 ++ vs.filterMap Prod.snd)

/-- The validation condition of `_collect_panels` line 132–134: the panel
wraps a single `WokwiNode` lacking a (truthy) firmware reference. -/
def missingFirmware (p : Panel) : Bool :=
  match p.children with
  | [DocNode.wokwi w] => pyFalsy w.firmware
  | _ => false

/-- Exactly the first panel of a list is active. -/
def firstActive (ps : List Panel) : Prop :=
  ∀ i (h : i < ps.length), ps[i].active = decide (i = 0)

/-- The options of a `wokwi-tabs` directive (`some` models key presence). -/
structure TabsOptions where
  json_pfx : Option String
  width : Option String
  height : Option String
  loading : Option String
  allowfullscreen : Bool
  classes : Option (List String)
deriving DecidableEq

def noTabsOptions : TabsOptions := ⟨none, none, none, none, false, none⟩

/-- `list(dict.fromkeys(...))`: deduplicate keeping first occurrences. -/
def dedupFirst : List String → List String
  | [] => []
  | c :: rest => c :: dedupFirst (rest.filter (fun x => x ≠ c))
termination_by l => l.length
decreasing_by
  simp only [List.length_cons, Nat.lt_succ_iff]
  apply List.length_filter_le

/-- The tabs-level overrides applied to Wokwi children (run, lines 163–176). -/
def applyWokwiOptions (opts : TabsOptions) (w : WokwiData) : WokwiData :=
  let w1 := match opts.width with | some v => { w with width := some v } | none => w
  let w2 := match opts.height with | some v => { w1 with height := some v } | none => w1
  let w3 := match opts.loading with | some v => { w2 with loading := some v } | none => w2
  let w4 := if opts.allowfullscreen then { w3 with allowfullscreen := true } else w3
  match opts.classes with
  | some cls => { w4 with classes := dedupFirst (w4.classes ++ cls) }
  | none => w4

def applyTabOptions (opts : TabsOptions) (p : Panel) : Panel :=
  { p with children := p.children.map (fun ch =>
      match ch with
      | DocNode.wokwi w => DocNode.wokwi (applyWokwiOptions opts w)
      | c => c) }

/-- The tab model assembled by `WokwiTabsDirective.run` (root id, tab list
labels, panel ids, panels).  The Launchpad-link fields of the TOML variant
are not modelled; they do not affect the panels. -/
structure TabModel where
  root_id : String
  labels : List String
  panel_ids : List String
  panels : List Panel
deriving DecidableEq

/-- Result of `WokwiTabsDirective.run`: `[]` for empty content, the error
list, or the composed tab model. -/
inductive RunResult where
  | empty
  | errs (msgs : List String)
  | tabs (tm : TabModel)
deriving DecidableEq

/-- `WokwiTabsDirective.run` (lines 147–223). -/
def wokwiTabsRun (children : List DocNode) (opts : TabsOptions)
    (cfgPfx : Option String) (serial : Nat) : RunResult :=
  if children.isEmpty then .empty
  else
    let pe := collect_panels children opts.json_pfx cfgPfx
    let errors := if pe.1.isEmpty then pe.2 ++ [noChildMsg] else pe.2
    if errors ≠ [] then .errs errors
    else
      let panels := pe.1.map (applyTabOptions opts)
      let root_id := "wokwi-tabs-" ++ toString serial
      let labels := panels.enum.map (fun ip =>
        if ip.2.label = "" then "Tab " ++ toString (ip.1 + 1) else ip.2.label)
      let panel_ids := (List.range panels.length).map
        (fun i => root_id ++ "-panel-" ++ toString i)
      let panels := (panels.zip panel_ids).map
        (fun pp => { pp.1 with panel_id := some pp.2 })
      .tabs ⟨root_id, labels, panel_ids, panels⟩

/-- `_make_url` (identical helper in `directives.py` and `wokwi_toml.py`).
`urljoin` of a simple relative path against a slash-terminated prefix is
modelled as concatenation. -/
def make_url (pfx path : Option String) : Option String :=
  match truthyOpt path with
  | none => none
  | some p =>
      if sStartsWith p "http://" || sStartsWith p "https://" then some p
      else
        match truthyOpt pfx with
        | none => none
        | some pr =>
            let pr2 := if sEndsWith pr "/" then pr else pr ++ "/"
            some (pr2 ++ lstripChar p '/')

/-- `_is_http_url` from `wokwi_toml.py`, modelling the `urlparse` scheme
check for the URL shapes occurring in this extension. -/
def is_http_url (s : String) : Bool :=
  sStartsWith s "http://" || sStartsWith s "https://"

/-- The panel construction of `WokwiExampleDirective.run` (lines 310–375):
a source-code panel for the first `.ino` file (skipped when the file
cannot be read — `inoContent = none`), then one Wokwi panel per target,
active only for the first target when there is no `.ino` file at all. -/
def wokwi_example_panels (targets inoFiles : List String)
    (inoContent : Option String) (storePfx : Option String) (examplePath : String)
    (defWidth defHeight defLoading : String) (defAllowFs : Bool) : List Panel :=
  let genBase := make_url storePfx (some (examplePath ++ "/.gen/"))
  let srcPanels : List Panel :=
    match inoFiles with
    | [] => []
    | f :: _ =>
        match inoContent with
        | some content => [⟨f, true, [DocNode.literalBlock content "arduino"], none⟩]
        | none => []
  let wokwiPanels : List Panel :=
    targets.enum.map (fun it =>
      let tabLabel := sToUpper it.2
      let w : WokwiData :=
        { tab_label := some tabLabel
          title := some ("Wokwi simulation — " ++ tabLabel)
          firmware := make_url genBase (some (it.2 ++ ".bin"))
          diagram := make_url genBase (some ("diagram-" ++ it.2 ++ ".json"))
          width := some defWidth
          height := some defHeight
          loading := some defLoading
          allowfullscreen := defAllowFs
          classes := ["wokwi-embed", "from-example"]
          suppress_header := true
          from_toml := false
          toml_url := none }
      ⟨tabLabel, decide (it.1 = 0) && inoFiles.isEmpty, [DocNode.wokwi w], none⟩)
  srcPanels ++ wokwiPanels

/-- `WokwiExampleDirective.run`, up to the panel list (the directive errors
out earlier when `targets` is empty). -/
def wokwi_example_run (targets inoFiles : List String) (inoContent : Option String)
    (storePfx : Option String) (examplePath : String)
    (defWidth defHeight defLoading : String) (defAllowFs : Bool) :
    Except String (List Panel) :=
  if targets = [] then .error "wokwi-example: no targets found in ci.json"
  else .ok (wokwi_example_panels targets inoFiles inoContent storePfx examplePath
      defWidth defHeight defLoading defAllowFs)

/-! ### Data model of `sphinx/wokwi_toml.py` -/

/-- A project table of the Launchpad TOML: its `chipsets` array and its
flat `image.<chipset>` / `diagram.<chipset>` keys. -/
structure TomlProject where
  chipsets : List String
  images : List (String × String)
  diagrams : List (String × String)
deriving DecidableEq

/-- The parsed TOML document. -/
structure TomlDoc where
  projects : List (String × TomlProject)
  firmware_images_url : Option String
deriving DecidableEq

/-- `_norm_chipset_key`: `'ESP32-C3' -> 'esp32-c3'`. -/
def norm_chipset_key (label : String) : String :=
  String.mk (((stripWhile isSpaceChar label.data).map Char.toLower).map
    (fun c => if c = ' ' then '-' else if c = '_' then '-' else c))

/-- The firmware image URL hard-coded in the chipset loop of
`WokwiTomlDirective.run` (line 140, a testing leftover). -/
def tomlHardcodedFirmware : String :=
  "https://esp.kubaandrysek.cz/arduino/libraries/ESP32/examples/GPIO/Blink/Blink-ESP32.bin"

/-- The diagram URL hard-coded in the chipset loop (line 151). -/
def tomlHardcodedDiagram : String :=
  "https://esp.kubaandrysek.cz/arduino/libraries/ESP32/examples/GPIO/Blink/Blink-ESP32-diagram.json"

/-- One iteration of the chipset loop of `WokwiTomlDirective.run`
(lines 138–178). -/
def tomlNode (proj : TomlProject) (project lp server : String)
    (fwBase : Option String) (tomlUrl : Option String)
    (defWidth defHeight defLoading : String) (defAllowFs : Bool) (label : String) :
    Except String WokwiData :=
  let key := norm_chipset_key label
  let imgPath0 := tomlHardcodedFirmware
  let imgPath : Option String :=
    if imgPath0 = "" then proj.images.lookup ("image." ++ key) else some imgPath0
  match truthyOpt imgPath with
  | none => .error ("wokwi-toml: missing " ++ sq ("image." ++ key) ++ " for project "
      ++ sq project ++ ".")
  | some img =>
      let diagPath := tomlHardcodedDiagram
      match pyOr (make_url (some server) (some img)) (make_url fwBase (some img)) with
      | none => .error ("wokwi-toml: could not build firmware URL for chipset "
          ++ sq label ++ ". Provide absolute http(s) in TOML or set "
          ++ sq "wokwi_download_server" ++ " in conf.py.")
      | some fw =>
          .ok { tab_label := some (if lp = "" then label else lp ++ label)
                title := some ("Wokwi simulation — " ++ project ++ " (" ++ label ++ ")")
                firmware := some fw
                diagram := make_url fwBase (some diagPath)
                width := some defWidth
                height := some defHeight
                loading := some defLoading
                allowfullscreen := defAllowFs
                classes := ["wokwi-embed", "from-toml"]
                suppress_header := true
                from_toml := true
                toml_url := tomlUrl }

/-- `WokwiTomlDirective.run`. -/
def wokwiTomlRun (tomlArg : String) (data : TomlDoc) (projectOpt : Option String)
    (labelPfx : Option String) (downloadServer : Option String)
    (defWidth defHeight defLoading : String) (defAllowFs : Bool) :
    Except String (List WokwiData) :=
  match truthyOpt projectOpt with
  | none => .error "wokwi-toml: :project: is required."
  | some project =>
      match truthyOpt downloadServer with
      | none => .error ("wokwi-toml: " ++ sq "wokwi_download_server"
          ++ " must be set in conf.py (e.g. " ++ sq "https://esp.kubaandrysek.cz/arduino/"
          ++ ").")
      | some server =>
          let fwBase := data.firmware_images_url
          match data.projects.lookup project with
          | none => .error ("wokwi-toml: project " ++ sq project ++ " not found in "
              ++ tomlArg)
          | some proj =>
              if proj.chipsets = [] then
                .error ("wokwi-toml: project " ++ sq project ++ " has no "
                  ++ sq "chipsets" ++ " array.")
              else
                let tomlUrl := if is_http_url tomlArg then some tomlArg else none
                let lp := String.mk (stripWhile isSpaceChar (pyGetD labelPfx "").data)
                do
                  let n1 ← tomlNode proj project lp server fwBase tomlUrl
                    defWidth defHeight defLoading defAllowFs "ESP32"
                  let n2 ← tomlNode proj project lp server fwBase tomlUrl
                    defWidth defHeight defLoading defAllowFs "ESP32-S3"
                  pure [n1, n2]

theorem collapseRuns_nil (p : Char → Bool) : collapseRuns p [] = [] := by
  simp [collapseRuns]

theorem collapseRuns_cons (p : Char → Bool) (c : Char) (rest : List Char) :
    collapseRuns p (c :: rest) =
      if p c then '-' :: collapseRuns p (rest.dropWhile p)
      else c :: collapseRuns p rest := by
  simp only [collapseRuns]

theorem collapseRuns_cons_pos (p : Char → Bool) (c : Char) (rest : List Char)
    (h : p c = true) :
    collapseRuns p (c :: rest) = '-' :: collapseRuns p (rest.dropWhile p) := by
  rw [collapseRuns_cons, if_pos h]

theorem collapseRuns_cons_neg (p : Char → Bool) (c : Char) (rest : List Char)
    (h : p c = false) :
    collapseRuns p (c :: rest) = c :: collapseRuns p rest := by
  rw [collapseRuns_cons, if_neg]
  simp [h]

theorem map_eq_self_of_eq {f : Char → Char} {l : List Char}
    (h : ∀ c ∈ l, f c = c) : l.map f = l := by
  induction l with
  | nil => rfl
  | cons a m ih =>
      rw [List.map_cons, h a (List.mem_cons_self a m),
        ih (fun c hc => h c (List.mem_cons_of_mem _ hc))]

/-- Adjacent-character relation: not both hyphens. -/
def hyR (a b : Char) : Prop := ¬(a = '-' ∧ b = '-')

theorem hyR_symm {a b : Char} (h : hyR a b) : hyR b a :=
  fun hc => h ⟨hc.2, hc.1⟩

theorem slugAllowed_ranges {c : Char} (h : slugAllowed c = true) :
    (97 ≤ c.toNat ∧ c.toNat ≤ 122) ∨ (48 ≤ c.toNat ∧ c.toNat ≤ 57) ∨ c.toNat = 45 := by
  simp only [slugAllowed, Bool.or_eq_true, Bool.and_eq_true, decide_eq_true_eq,
    beq_iff_eq] at h
  rcases h with (h | h) | h
  · exact Or.inl h
  · exact Or.inr (Or.inl h)
  · subst h; exact Or.inr (Or.inr rfl)

theorem slugAllowed_not_space {c : Char} (h : slugAllowed c = true) :
    isSpaceChar c = false := by
  have hr := slugAllowed_ranges h
  have h32 : ¬ c = ' ' := by rintro rfl; revert hr; decide
  have h9 : ¬ c = '\t' := by rintro rfl; revert hr; decide
  have h13 : ¬ c = '\x0d' := by rintro rfl; revert hr; decide
  have h10 : ¬ c = '\n' := by rintro rfl; revert hr; decide
  simp [isSpaceChar, Char.isWhitespace, h32, h9, h13, h10]

theorem slugAllowed_toLower {c : Char} (h : slugAllowed c = true) :
    c.toLower = c := by
  have hr := slugAllowed_ranges h
  unfold Char.toLower
  have hnot : ¬(c.toNat ≥ 65 ∧ c.toNat ≤ 90) := by omega
  simp [hnot]

theorem slugCharFix_allowed (c : Char) : slugAllowed (slugCharFix c) = true := by
  unfold slugCharFix
  by_cases h : slugAllowed c = true
  · rwa [if_pos h]
  · rw [if_neg h]; decide

theorem slugCharFix_eq_self {c : Char} (h : slugAllowed c = true) :
    slugCharFix c = c := by
  simp [slugCharFix, h]

theorem mem_collapseRuns {p : Char → Bool} {c : Char} :
    ∀ {l : List Char}, c ∈ collapseRuns p l → c = '-' ∨ c ∈ l := by
  intro l
  induction l using collapseRuns.induct p with
  | case1 => intro h; simp [collapseRuns] at h
  | case2 d rest hd ih =>
      intro h
      rw [collapseRuns_cons_pos p _ _ hd] at h
      rcases List.mem_cons.mp h with h | h
      · exact Or.inl h
      · rcases ih h with h' | h'
        · exact Or.inl h'
        · exact Or.inr (List.mem_cons_of_mem _ ((List.dropWhile_sublist p).subset h'))
  | case3 d rest hd ih =>
      intro h
      rw [collapseRuns_cons_neg p _ _ (by simpa using hd)] at h
      rcases List.mem_cons.mp h with h | h
      · exact Or.inr (h ▸ List.mem_cons_self _ _)
      · rcases ih h with h' | h'
        · exact Or.inl h'
        · exact Or.inr (List.mem_cons_of_mem _ h')

theorem noTwoHyphens_iff : ∀ {l : List Char},
    noTwoHyphens l = true ↔ l.Chain' hyR := by
  intro l
  induction l with
  | nil => simp [noTwoHyphens]
  | cons a l ih =>
    cases l with
    | nil => simp [noTwoHyphens, List.chain'_singleton]
    | cons b r =>
      rw [List.chain'_cons]
      simp only [noTwoHyphens, Bool.and_eq_true, Bool.not_eq_true',
        Bool.and_eq_false_iff, beq_eq_false_iff_ne, ne_eq] at *
      constructor
      · rintro ⟨h1, h2⟩
        refine ⟨?_, ih.mp h2⟩
        rintro ⟨rfl, rfl⟩
        rcases h1 with h | h <;> simp at h
      · rintro ⟨h1, h2⟩
        refine ⟨?_, ih.mpr h2⟩
        by_cases ha : a = '-'
        · by_cases hb : b = '-'
          · exact absurd ⟨ha, hb⟩ h1
          · exact Or.inr (by simpa using hb)
        · exact Or.inl (by simpa using ha)

theorem dropWhile_head_false (p : Char → Bool) {l : List Char} {d : Char} {m : List Char}
    (h : l.dropWhile p = d :: m) : p d = false := by
  have h0 : 0 < (l.dropWhile p).length := by rw [h]; simp
  have hn := List.dropWhile_get_zero_not p l h0
  have : (l.dropWhile p).get ⟨0, h0⟩ = d := by
    simp only [List.get_eq_getElem]
    rw [List.getElem_of_eq h]
    rfl
  rw [this] at hn
  simpa using hn

theorem collapseRuns_hyphen_chain' : ∀ l : List Char,
    (collapseRuns (fun c => c == '-') l).Chain' hyR := by
  intro l
  induction l using collapseRuns.induct (fun c => c == '-') with
  | case1 => simp [collapseRuns]
  | case2 c rest hc ih =>
      rw [collapseRuns_cons_pos (fun x => x == '-') _ _ hc]
      rw [List.chain'_cons']
      refine ⟨?_, ih⟩
      intro y hy
      cases hd : rest.dropWhile (fun c => c == '-') with
      | nil =>
          rw [hd, collapseRuns_nil] at hy
          simp at hy
      | cons d m =>
          have hdf : (d == '-') = false := dropWhile_head_false (fun x => x == '-') hd
          rw [hd, collapseRuns_cons_neg (fun x => x == '-') _ _ hdf] at hy
          simp only [List.head?_cons, Option.mem_def, Option.some_inj] at hy
          subst hy
          rintro ⟨-, hy2⟩
          rw [hy2] at hdf
          simp at hdf
  | case3 c rest hc ih =>
      rw [collapseRuns_cons_neg (fun x => x == '-') _ _ (by simpa using hc)]
      rw [List.chain'_cons']
      refine ⟨?_, ih⟩
      intro y _
      rintro ⟨h1, -⟩
      rw [h1] at hc
      simp at hc

theorem chain'_reverse_hyR {m : List Char} (h : m.Chain' hyR) :
    m.reverse.Chain' hyR := by
  rw [List.chain'_reverse]
  exact h.imp (fun _ _ hab => hyR_symm hab)

theorem chain'_stripWhile {p : Char → Bool} {l : List Char} (h : l.Chain' hyR) :
    (stripWhile p l).Chain' hyR := by
  unfold stripWhile dropEndWhile
  have h1 := h.suffix (List.dropWhile_suffix p)
  have h2 := chain'_reverse_hyR h1
  have h3 := h2.suffix (List.dropWhile_suffix p)
  exact chain'_reverse_hyR h3

theorem stripWhile_subset {p : Char → Bool} {l : List Char} :
    stripWhile p l ⊆ l := by
  intro c hc
  unfold stripWhile dropEndWhile at hc
  rw [List.mem_reverse] at hc
  have hc1 := (List.dropWhile_sublist p).subset hc
  rw [List.mem_reverse] at hc1
  exact (List.dropWhile_sublist p).subset hc1

theorem getLast?_of_suffix {α : Type} {m l : List α} (h : m <:+ l) (hne : m ≠ []) :
    m.getLast? = l.getLast? := by
  obtain ⟨t, rfl⟩ := h
  rw [List.getLast?_append]
  cases hm : m.getLast? with
  | none =>
      exfalso
      exact hne (by simpa using hm)
  | some x => rfl

theorem head?_stripWhile {p : Char → Bool} {l : List Char} {c : Char}
    (h : (stripWhile p l).head? = some c) : p c = false := by
  unfold stripWhile dropEndWhile at h
  rw [List.head?_reverse] at h
  set r0 := l.dropWhile p with hr0
  set X := r0.reverse.dropWhile p with hX
  have hXne : X ≠ [] := by
    intro hXnil
    rw [hXnil] at h
    simp at h
  have h1 : X.getLast? = r0.reverse.getLast? :=
    getLast?_of_suffix (List.dropWhile_suffix p) hXne
  rw [h1] at h
  rw [List.getLast?_eq_head?_reverse, List.reverse_reverse] at h
  cases hr : r0 with
  | nil => rw [hr] at h; simp at h
  | cons d m =>
      rw [hr] at h
      simp only [List.head?_cons, Option.some_inj] at h
      subst h
      exact dropWhile_head_false _ hr

theorem getLast?_stripWhile {p : Char → Bool} {l : List Char} {c : Char}
    (h : (stripWhile p l).getLast? = some c) : p c = false := by
  unfold stripWhile dropEndWhile at h
  rw [List.getLast?_eq_head?_reverse, List.reverse_reverse] at h
  cases hr : (l.dropWhile p).reverse.dropWhile p with
  | nil => rw [hr] at h; simp at h
  | cons d m =>
      rw [hr] at h
      simp only [List.head?_cons, Option.some_inj] at h
      subst h
      exact dropWhile_head_false _ hr

/-- Unfolding of `slug_lower` into its pipeline stages. -/
theorem slug_lower_eq (name : String) :
    slug_lower name = String.mk (stripWhile (fun c => c == '-')
      (collapseRuns (fun c => c == '-')
        ((collapseRuns isSpaceChar
          ((stripWhile isSpaceChar name.data).map Char.toLower)).map slugCharFix))) := rfl

theorem slug_lower_allowed (s : String) :
    (slug_lower s).data.all slugAllowed = true := by
  rw [slug_lower_eq]
  apply List.all_eq_true.mpr
  intro c hc
  have hc3 := stripWhile_subset hc
  rcases mem_collapseRuns hc3 with rfl | hc2
  · decide
  · rcases List.mem_map.mp hc2 with ⟨d, -, rfl⟩
    exact slugCharFix_allowed d

theorem slug_lower_chain' (s : String) : (slug_lower s).data.Chain' hyR := by
  rw [slug_lower_eq]
  exact chain'_stripWhile (collapseRuns_hyphen_chain' _)

theorem slug_lower_headNot (s : String) :
    headNotHyphen (slug_lower s).data = true := by
  unfold headNotHyphen
  cases hh : (slug_lower s).data.head? with
  | none => rfl
  | some c =>
      rw [slug_lower_eq] at hh
      have := head?_stripWhile hh
      simp [this]

theorem slug_lower_lastNot (s : String) :
    lastNotHyphen (slug_lower s).data = true := by
  unfold lastNotHyphen
  cases hh : (slug_lower s).data.getLast? with
  | none => rfl
  | some c =>
      rw [slug_lower_eq] at hh
      have := getLast?_stripWhile hh
      simp [this]

theorem dropWhile_eq_self_of_head {p : Char → Bool} {l : List Char}
    (h : ∀ c, l.head? = some c → p c = false) : l.dropWhile p = l := by
  cases l with
  | nil => rfl
  | cons a m =>
      rw [List.dropWhile_cons]
      simp [h a rfl]

theorem stripWhile_eq_self {p : Char → Bool} {l : List Char}
    (hh : ∀ c, l.head? = some c → p c = false)
    (hl : ∀ c, l.getLast? = some c → p c = false) : stripWhile p l = l := by
  unfold stripWhile dropEndWhile
  rw [dropWhile_eq_self_of_head hh]
  rw [dropWhile_eq_self_of_head (fun c hc => hl c (by rw [List.head?_reverse] at hc; exact hc))]
  exact List.reverse_reverse l

theorem collapseRuns_eq_self_of_none {p : Char → Bool} : ∀ {l : List Char},
    (∀ c ∈ l, p c = false) → collapseRuns p l = l := by
  intro l
  induction l with
  | nil => intro _; exact collapseRuns_nil p
  | cons a m ih =>
      intro h
      have ha : p a = false := h a (List.mem_cons_self a m)
      rw [collapseRuns_cons_neg p _ _ ha]
      rw [ih (fun c hc => h c (List.mem_cons_of_mem _ hc))]

theorem collapseRuns_hyphen_eq_self : ∀ {l : List Char}, l.Chain' hyR →
    collapseRuns (fun c => c == '-') l = l := by
  intro l
  induction l using collapseRuns.induct (fun c => c == '-') with
  | case1 => intro _; exact collapseRuns_nil _
  | case2 c rest hc ih =>
      intro hch
      have hc' : c = '-' := by simpa using hc
      rw [collapseRuns_cons_pos (fun x => x == '-') _ _ hc]
      have hrest : rest.dropWhile (fun c => c == '-') = rest := by
        apply dropWhile_eq_self_of_head
        intro d hd
        have hR := (List.chain'_cons'.mp hch).1 d hd
        subst hc'
        simp only [beq_eq_false_iff_ne, ne_eq]
        intro hd'
        exact hR ⟨rfl, hd'⟩
      rw [hrest] at ih ⊢
      rw [ih (by simpa using hch.tail), hc']
  | case3 c rest hc ih =>
      intro hch
      rw [collapseRuns_cons_neg (fun x => x == '-') _ _ (by simpa using hc)]
      rw [ih (by simpa using hch.tail)]

theorem slug_lower_eq_self {l : List Char}
    (hall : l.all slugAllowed = true)
    (hch : l.Chain' hyR)
    (hhd : headNotHyphen l = true)
    (hlt : lastNotHyphen l = true) :
    slug_lower (String.mk l) = String.mk l := by
  have hmem : ∀ c ∈ l, slugAllowed c = true := List.all_eq_true.mp hall
  rw [slug_lower_eq]
  show String.mk (stripWhile (fun c => c == '-')
      (collapseRuns (fun c => c == '-')
        ((collapseRuns isSpaceChar
          ((stripWhile isSpaceChar l).map Char.toLower)).map slugCharFix))) = String.mk l
  have hmemh : ∀ c, l.head? = some c → isSpaceChar c = false := by
    intro c hc
    exact slugAllowed_not_space (hmem c (List.mem_of_mem_head? (by rw [hc]; rfl)))
  have hmeml : ∀ c, l.getLast? = some c → isSpaceChar c = false := by
    intro c hc
    exact slugAllowed_not_space (hmem c (List.mem_of_mem_getLast? (by rw [hc]; rfl)))
  rw [stripWhile_eq_self hmemh hmeml]
  rw [map_eq_self_of_eq (fun c hc => slugAllowed_toLower (hmem c hc))]
  rw [collapseRuns_eq_self_of_none (fun c hc => slugAllowed_not_space (hmem c hc))]
  rw [map_eq_self_of_eq (fun c hc => slugCharFix_eq_self (hmem c hc))]
  rw [collapseRuns_hyphen_eq_self hch]
  rw [stripWhile_eq_self ?hh ?hl]
  case hh =>
    intro c hc
    unfold headNotHyphen at hhd
    rw [hc] at hhd
    simpa using hhd
  case hl =>
    intro c hc
    unfold lastNotHyphen at hlt
    rw [hc] at hlt
    simpa using hlt

/-- C9: the `slug` function is idempotent for every input string —
`slug(slug(s)) = slug(s)` — and its output is lowercase-normalised: it
contains only characters in `[a-z0-9-]`, has no runs of repeated hyphens,
and no leading or trailing hyphens, for all inputs (including strings with
existing hyphens, whitespace, and mixed case). -/
theorem slug_idempotent_and_normalized (s : String) :
    slug_lower (slug_lower s) = slug_lower s
    ∧ (slug_lower s).data.all slugAllowed = true
    ∧ noTwoHyphens (slug_lower s).data = true
    ∧ headNotHyphen (slug_lower s).data = true
    ∧ lastNotHyphen (slug_lower s).data = true := by
  refine ⟨?_, slug_lower_allowed s, noTwoHyphens_iff.mpr (slug_lower_chain' s),
    slug_lower_headNot s, slug_lower_lastNot s⟩
  exact slug_lower_eq_self (slug_lower_allowed s) (slug_lower_chain' s)
    (slug_lower_headNot s) (slug_lower_lastNot s)

/-! ### Theorems about the synchronisation engine -/

theorem generate_diagram_empty (t : String) :
    generate_diagram t emptyOverride = create_default_diagram t := by
  unfold generate_diagram
  cases h : create_default_diagram t with
  | none => rfl
  | some d0 => simp [emptyOverride]

/-- Normal form of `generate_diagram`: appending an empty list is the
identity, so the walrus-guarded branches collapse. -/
theorem generate_diagram_eq (t : String) (o : Override) :
    generate_diagram t o = (create_default_diagram t).map (fun d0 =>
      { d0 with
        parts := d0.parts ++ o.parts
        connections := d0.connections ++ o.connections
        dependencies := if o.dependencies ≠ [] then o.dependencies
          else d0.dependencies }) := by
  unfold generate_diagram
  cases create_default_diagram t with
  | none => rfl
  | some d0 =>
      by_cases h1 : o.parts = [] <;> by_cases h2 : o.connections = [] <;>
        by_cases h3 : o.dependencies = [] <;>
        simp [h1, h2, h3]

theorem board_lookup_starts_board (t b : String)
    (h : target_to_boards.lookup t = some b) : sStartsWith b "board-" = true := by
  simp only [target_to_boards, List.lookup] at h
  repeat' split at h
  all_goals first
    | (injection h with h'; subst h'; decide)
    | exact absurd h (by simp)

/-- C2 (amended): for every target in the board table, the generated
default diagram (equivalently, `generate` applied to the empty override)
has exactly one board part whose type equals the table entry and exactly
two connections; `esp32p4` wires `esp:37` to the monitor's RX and then
`esp:38` to its TX; every other target uses the symbolic `RX`/`TX` pin
names. -/
theorem generate_default_diagram_shape (t b : String)
    (h : target_to_boards.lookup t = some b) :
    ∃ d, create_default_diagram t = some d
      ∧ generate_diagram t emptyOverride = some d
      ∧ d.parts = [⟨b, "esp", 0, 0, []⟩]
      ∧ d.connections.length = 2
      ∧ (t = "esp32p4" →
          d.connections = [⟨"esp:37", "$serialMonitor:RX", "", []⟩,
            ⟨"esp:38", "$serialMonitor:TX", "", []⟩])
      ∧ (t ≠ "esp32p4" →
          d.connections = [⟨"esp:TX", "$serialMonitor:RX", "", []⟩,
            ⟨"esp:RX", "$serialMonitor:TX", "", []⟩]) := by
  have hg := generate_diagram_empty t
  unfold create_default_diagram at hg ⊢
  rw [h] at hg ⊢
  by_cases hp : t = "esp32p4"
  · rw [if_pos hp, if_pos hp] at hg ⊢
    exact ⟨_, rfl, hg, rfl, rfl, fun _ => rfl, fun hne => absurd hp hne⟩
  · rw [if_neg hp, if_neg hp] at hg ⊢
    exact ⟨_, rfl, hg, rfl, rfl, fun heq => absurd heq hp, fun _ => rfl⟩

/-- C2 witness: instantiation at `esp32`. -/
theorem generate_default_diagram_shape_witness :
    ∃ d, create_default_diagram "esp32" = some d
      ∧ generate_diagram "esp32" emptyOverride = some d
      ∧ d.parts = [⟨"board-esp32-devkit-c-v4", "esp", 0, 0, []⟩]
      ∧ d.connections.length = 2
      ∧ ("esp32" = "esp32p4" →
          d.connections = [⟨"esp:37", "$serialMonitor:RX", "", []⟩,
            ⟨"esp:38", "$serialMonitor:TX", "", []⟩])
      ∧ ("esp32" ≠ "esp32p4" →
          d.connections = [⟨"esp:TX", "$serialMonitor:RX", "", []⟩,
            ⟨"esp:RX", "$serialMonitor:TX", "", []⟩]) :=
  generate_default_diagram_shape "esp32" "board-esp32-devkit-c-v4" (by decide)

/-- C2 counterexample: the claimed `esp32p4` connection list (pins 38/37
wired to RX/TX respectively, in that order) is not what the code
generates — the code pairs `esp:37` with the monitor's RX and `esp:38`
with its TX. -/
theorem esp32p4_connections_counterexample :
    ¬ ((generate_diagram "esp32p4" emptyOverride).map Diagram.connections
        = some [⟨"esp:38", "$serialMonitor:RX", "", []⟩,
            ⟨"esp:37", "$serialMonitor:TX", "", []⟩]) := by
  decide

/-- C1 (amended): `extractOverride` is a left inverse of `generate` for
every board-table target other than `esp32p4`, and every override whose
parts do not use the reserved `board-` type marker and whose connections
do not match the synthesized serial-monitor patterns; dependencies pass
through unchanged. -/
theorem extract_generate_roundtrip (t b : String) (o : Override) (d : Diagram)
    (hb : target_to_boards.lookup t = some b)
    (hp4 : t ≠ "esp32p4")
    (hparts : ∀ p ∈ o.parts, sStartsWith p.type "board-" = false)
    (hconns : ∀ c ∈ o.connections, is_serial_connection c = false)
    (hgen : generate_diagram t o = some d) :
    extract_override d = o := by
  rw [generate_diagram_eq] at hgen
  unfold create_default_diagram at hgen
  rw [hb, if_neg hp4, if_neg hp4] at hgen
  simp only [Option.map_some] at hgen
  injection hgen with hd
  subst hd
  unfold extract_override filter_parts filter_connections
  have hps : List.filter (fun part => !(sStartsWith part.type "board-"))
      ([(⟨b, "esp", 0, 0, []⟩ : Part)] ++ o.parts) = o.parts := by
    rw [List.filter_append]
    have h1 : List.filter (fun part => !(sStartsWith part.type "board-"))
        [(⟨b, "esp", 0, 0, []⟩ : Part)] = [] := by
      simp [board_lookup_starts_board t b hb]
    rw [h1, List.nil_append]
    exact List.filter_eq_self.mpr (fun p hp => by simp [hparts p hp])
  have hcs : List.filter (fun conn => !(is_serial_connection conn))
      ([⟨"esp:" ++ "TX", "$serialMonitor:RX", "", []⟩,
        ⟨"esp:" ++ "RX", "$serialMonitor:TX", "", []⟩] ++ o.connections)
      = o.connections := by
    rw [List.filter_append]
    have h1 : List.filter (fun conn => !(is_serial_connection conn))
        [(⟨"esp:" ++ "TX", "$serialMonitor:RX", "", []⟩ : Conn),
          ⟨"esp:" ++ "RX", "$serialMonitor:TX", "", []⟩] = [] := by decide
    rw [h1, List.nil_append]
    exact List.filter_eq_self.mpr (fun c hc => by simp [hconns c hc])
  obtain ⟨op, oc, od⟩ := o
  simp only [Override.mk.injEq]
  refine ⟨hps, hcs, ?_⟩
  by_cases h3 : od = []
  · simp [h3]
  · simp [h3]

/-- C1 witness: a round trip through `generate` at `esp32` with a
non-empty override (one part, one connection, one dependency). -/
theorem extract_generate_roundtrip_witness :
    ∃ d, generate_diagram "esp32"
        ⟨[⟨"wokwi-led", "led1", 10, 20, [("color", "red")]⟩],
         [⟨"led1:A", "esp:4", "green", []⟩], [("chip", "1.0.0")]⟩ = some d
      ∧ extract_override d =
        ⟨[⟨"wokwi-led", "led1", 10, 20, [("color", "red")]⟩],
         [⟨"led1:A", "esp:4", "green", []⟩], [("chip", "1.0.0")]⟩ := by
  refine ⟨_, rfl, ?_⟩
  exact extract_generate_roundtrip "esp32" "board-esp32-devkit-c-v4" _ _ (by decide)
    (by decide) (by decide) (by decide) rfl

/-- C1 counterexample: the round-trip law fails as stated — (a) for target
`esp32p4` even the empty override does not round-trip (the synthesized
pin-number serial connections are not recognised by the extraction
filter); (b) an override containing a `board-` part is dropped; (c) an
override connection whose first three elements match a serial pattern is
dropped even if its route points differ. -/
theorem roundtrip_counterexample :
    (generate_diagram "esp32p4" emptyOverride).map extract_override ≠ some emptyOverride
    ∧ (generate_diagram "esp32"
        ⟨[⟨"board-custom", "b1", 0, 0, []⟩], [], []⟩).map extract_override
        ≠ some ⟨[⟨"board-custom", "b1", 0, 0, []⟩], [], []⟩
    ∧ (generate_diagram "esp32"
        ⟨[], [⟨"esp:RX", "$serialMonitor:TX", "", ["v1"]⟩], []⟩).map extract_override
        ≠ some ⟨[], [⟨"esp:RX", "$serialMonitor:TX", "", ["v1"]⟩], []⟩ := by
  refine ⟨?_, ?_, ?_⟩ <;> decide

theorem lookup_map_replace_ne (k q : String) (v : Override)
    (hqk : (q == k) = false) :
    ∀ m : List (String × Override),
      (m.map (fun kv => if kv.1 = k then (k, v) else kv)).lookup q = m.lookup q := by
  intro m
  induction m with
  | nil => rfl
  | cons kv rest ih =>
      rw [List.map_cons]
      by_cases hkv : kv.1 = k
      · rw [if_pos hkv]
        have hq1 : (q == kv.1) = false := by rw [hkv]; exact hqk
        simp only [List.lookup, hqk, hq1]
        exact ih
      · rw [if_neg hkv]
        simp only [List.lookup]
        cases hq : (q == kv.1) with
        | true => rfl
        | false => exact ih

theorem lookup_append_single_ne (k q : String) (v : Override)
    (hqk : (q == k) = false) :
    ∀ m : List (String × Override), (m ++ [(k, v)]).lookup q = m.lookup q := by
  intro m
  induction m with
  | nil => simp [List.lookup, hqk]
  | cons kv rest ih =>
      rw [List.cons_append]
      simp only [List.lookup]
      cases hq : (q == kv.1) with
      | true => rfl
      | false => exact ih

theorem lookup_setEntry_ne (k q : String) (v : Override) (hne : q ≠ k) :
    ∀ m : List (String × Override), (setEntry m k v).lookup q = m.lookup q := by
  have hqk : (q == k) = false := by simpa using hne
  intro m
  unfold setEntry
  by_cases hk : (m.lookup k).isSome
  · rw [if_pos hk]
    exact lookup_map_replace_ne k q v hqk m
  · rw [if_neg hk]
    exact lookup_append_single_ne k q v hqk m

theorem processPlatform_none (ub : UploadBinary) (plat : String) :
    processPlatform ub plat none =
      (if plat ∈ ub.targets then ub
       else { ub with targets := ub.targets ++ [plat] }) := rfl

theorem processPlatform_some (ub : UploadBinary) (plat : String) (d : Diagram) :
    processPlatform ub plat (some d) =
      (if (extract_override d).parts = [] ∧ (extract_override d).connections = []
          ∧ (extract_override d).dependencies = [] then
        (if plat ∈ ub.targets then ub
         else { ub with targets := ub.targets ++ [plat] })
       else
        { (if plat ∈ ub.targets then ub
           else { ub with targets := ub.targets ++ [plat] }) with
          diagram := setEntry
            (if plat ∈ ub.targets then ub
             else { ub with targets := ub.targets ++ [plat] }).diagram plat
            (extract_override d) }) := rfl

theorem processPlatform_lookup_other (ub : UploadBinary) (plat q : String)
    (dq : Option Diagram) (hq : q ≠ plat) :
    (processPlatform ub plat dq).diagram.lookup q = ub.diagram.lookup q := by
  cases dq with
  | none =>
      rw [processPlatform_none]
      split <;> rfl
  | some d =>
      rw [processPlatform_some]
      have hub1 : (if plat ∈ ub.targets then ub
          else { ub with targets := ub.targets ++ [plat] }).diagram = ub.diagram := by
        split <;> rfl
      split
      · rw [hub1]
      · show ((setEntry (if plat ∈ ub.targets then ub
            else { ub with targets := ub.targets ++ [plat] }).diagram plat
            (extract_override d)).lookup q) = ub.diagram.lookup q
        rw [hub1]
        exact lookup_setEntry_ne plat q _ hq _

/-- C3: syncing a diagram whose extracted override is entirely empty stores
no diagram-override entry, still appends the target to the manifest's
target list if absent (and never duplicates it), and entries for targets
other than the processed one are always left unchanged. -/
theorem sync_empty_override_skips_entry (ub : UploadBinary) (plat q : String)
    (d : Diagram) (dq : Option Diagram)
    (hparts : (extract_override d).parts = [])
    (hconns : (extract_override d).connections = [])
    (hdeps : (extract_override d).dependencies = [])
    (hq : q ≠ plat) :
    (processPlatform ub plat (some d)).diagram = ub.diagram
    ∧ (processPlatform ub plat (some d)).targets =
        (if plat ∈ ub.targets then ub.targets else ub.targets ++ [plat])
    ∧ plat ∈ (processPlatform ub plat (some d)).targets
    ∧ (ub.targets.Nodup → (processPlatform ub plat (some d)).targets.Nodup)
    ∧ (processPlatform ub plat dq).diagram.lookup q = ub.diagram.lookup q := by
  have hres : processPlatform ub plat (some d) =
      (if plat ∈ ub.targets then ub
       else { ub with targets := ub.targets ++ [plat] }) := by
    rw [processPlatform_some, if_pos ⟨hparts, hconns, hdeps⟩]
  refine ⟨?_, ?_, ?_, ?_, processPlatform_lookup_other ub plat q dq hq⟩
  · rw [hres]; split <;> rfl
  · rw [hres]; split <;> simp_all
  · rw [hres]
    split
    · assumption
    · simp
  · intro hnd
    rw [hres]
    by_cases hmem : plat ∈ ub.targets
    · rw [if_pos hmem]; exact hnd
    · rw [if_neg hmem]
      show (ub.targets ++ [plat]).Nodup
      rw [List.nodup_append]
      refine ⟨hnd, List.nodup_singleton _, ?_⟩
      intro a ha hb
      rcases List.mem_singleton.mp hb with rfl
      exact hmem ha

/-- C3 witness: a default-only diagram for `esp32s3` synced into a manifest
that lists `esp32` and carries an override for target `other`. -/
theorem sync_empty_override_skips_entry_witness :
    (processPlatform ⟨["esp32"], [("other", ⟨[⟨"wokwi-led", "l", 0, 0, []⟩], [], []⟩)], none⟩
        "esp32s3" (some ⟨1, "Espressif Systems", "wokwi",
          [⟨"board-esp32-s3-devkitc-1", "esp", 0, 0, []⟩],
          [⟨"esp:TX", "$serialMonitor:RX", "", []⟩,
           ⟨"esp:RX", "$serialMonitor:TX", "", []⟩], []⟩)).diagram
      = [("other", ⟨[⟨"wokwi-led", "l", 0, 0, []⟩], [], []⟩)]
    ∧ (processPlatform ⟨["esp32"], [("other", ⟨[⟨"wokwi-led", "l", 0, 0, []⟩], [], []⟩)], none⟩
        "esp32s3" (some ⟨1, "Espressif Systems", "wokwi",
          [⟨"board-esp32-s3-devkitc-1", "esp", 0, 0, []⟩],
          [⟨"esp:TX", "$serialMonitor:RX", "", []⟩,
           ⟨"esp:RX", "$serialMonitor:TX", "", []⟩], []⟩)).targets
      = ["esp32", "esp32s3"] := by
  have h := sync_empty_override_skips_entry
    ⟨["esp32"], [("other", ⟨[⟨"wokwi-led", "l", 0, 0, []⟩], [], []⟩)], none⟩
    "esp32s3" "other"
    ⟨1, "Espressif Systems", "wokwi",
      [⟨"board-esp32-s3-devkitc-1", "esp", 0, 0, []⟩],
      [⟨"esp:TX", "$serialMonitor:RX", "", []⟩,
       ⟨"esp:RX", "$serialMonitor:TX", "", []⟩], []⟩
    none (by decide) (by decide) (by decide) (by decide)
  refine ⟨?_, ?_⟩
  · rw [h.1]
  · rw [h.2.1]; decide

theorem allChipsets_error (targets : List String)
    (hbad : ∃ q ∈ targets, platform_to_chipset q = none) :
    ∃ r, allChipsets targets = .error r := by
  induction targets with
  | nil => simp at hbad
  | cons a rest ih =>
      obtain ⟨q, hq, hnone⟩ := hbad
      unfold allChipsets
      cases hmem : platform_to_chipset a with
      | none => exact ⟨a, rfl⟩
      | some c =>
          rcases List.mem_cons.mp hq with rfl | hq'
          · rw [hmem] at hnone; cases hnone
          · obtain ⟨r, hr⟩ := ih ⟨q, hq', hnone⟩
            rw [hr]
            exact ⟨r, rfl⟩

/-- C7: chipset mapping — `esp32` maps to `ESP32`, `esp32` plus any
two-character suffix maps to `ESP32-<SUFFIX>` uppercased, any other shape
raises before anything is written (no partial file); and for targets
`["esp32", "esp32s3"]` with project `Blink` the emitted image lines are
exactly `image.esp32 = "Blink-esp32.bin"` then
`image.esp32-s3 = "Blink-esp32-s3.bin"`, in manifest target order. -/
theorem launchpad_config_correct (suffix2 : String) (h2 : sLen suffix2 = 2)
    (p : String) (hne : p ≠ "esp32")
    (hshape : ¬(sStartsWith p "esp32" = true ∧ sLen (sDrop p 5) = 2))
    (targets : List String) (hbad : ∃ q ∈ targets, platform_to_chipset q = none)
    (pn bp su ru : String) (re : Bool) (dsc : Option String) (hts : targets ≠ []) :
    platform_to_chipset "esp32" = some "ESP32"
    ∧ platform_to_chipset ("esp32" ++ suffix2) = some ("ESP32-" ++ sToUpper suffix2)
    ∧ platform_to_chipset p = none
    ∧ lpWritten (generate_launchpad_config pn bp su ru false false true re targets dsc)
        = false
    ∧ (lpLines (generate_launchpad_config "Blink" "examples/Blink" "https://store/"
          "https://repo" false false true false ["esp32", "esp32s3"] none)).filter
        (fun l => sStartsWith l "image.")
      = ["image.esp32 = " ++ quoteD "Blink-esp32.bin",
         "image.esp32-s3 = " ++ quoteD "Blink-esp32-s3.bin"] := by
  refine ⟨rfl, ?_, ?_, ?_, ?_⟩
  · unfold platform_to_chipset
    have hne2 : ¬("esp32" ++ suffix2 = "esp32") := by
      intro heq
      have := congrArg (fun s => s.data.length) heq
      simp only [String.data_append, List.length_append] at this
      unfold sLen at h2
      omega
    rw [if_neg hne2]
    have hpre : sStartsWith ("esp32" ++ suffix2) "esp32" = true := by
      unfold sStartsWith
      rw [String.data_append]
      exact List.isPrefixOf_iff_prefix.mpr (List.prefix_append _ _)
    have hdrop : sDrop ("esp32" ++ suffix2) 5 = String.mk suffix2.data := by
      unfold sDrop
      rw [String.data_append]
      have h5 : ("esp32".data).length = 5 := rfl
      rw [← h5, List.drop_left]
    have hlen : sLen (sDrop ("esp32" ++ suffix2) 5) = 2 := by
      rw [hdrop]
      exact h2
    rw [if_pos]
    · rw [hdrop]
    · simp [hpre, hlen]
  · unfold platform_to_chipset
    rw [if_neg hne, if_neg]
    intro hcond
    simp only [Bool.and_eq_true, decide_eq_true_eq] at hcond
    exact hshape ⟨hcond.1, hcond.2⟩
  · obtain ⟨r, hr⟩ := allChipsets_error targets hbad
    unfold generate_launchpad_config
    rw [if_neg (by decide), if_neg (by decide), if_neg hts, hr]
    rfl
  · decide

/-- C7 witness: instantiation at suffix `s3` and bad target `arduino-uno`. -/
theorem launchpad_config_correct_witness :
    platform_to_chipset "esp32" = some "ESP32"
    ∧ platform_to_chipset ("esp32" ++ "s3") = some ("ESP32-" ++ sToUpper "s3")
    ∧ platform_to_chipset "arduino-uno" = none
    ∧ lpWritten (generate_launchpad_config "Blink" "examples/Blink" "https://store/"
        "https://repo" false false true false ["arduino-uno"] none) = false
    ∧ (lpLines (generate_launchpad_config "Blink" "examples/Blink" "https://store/"
          "https://repo" false false true false ["esp32", "esp32s3"] none)).filter
        (fun l => sStartsWith l "image.")
      = ["image.esp32 = " ++ quoteD "Blink-esp32.bin",
         "image.esp32-s3 = " ++ quoteD "Blink-esp32-s3.bin"] :=
  launchpad_config_correct "s3" (by decide) "arduino-uno" (by decide) (by decide)
    ["arduino-uno"] ⟨"arduino-uno", by decide, by decide⟩
    "Blink" "examples/Blink" "https://store/" "https://repo" false none (by decide)

/-- C8: evaluating the synchronisation code at the failing input.  With an
existing `ci.json` whose `upload-binary` section is populated and the
overwrite flag unset, `generate_ci_from_diagram` records the warning but
still writes a changed document (the final call is
`save_json(ci_file, ci_data, True)`).  Under the same flag, `save_json`,
`generate_diagram` and `generate_launchpad_config` do leave an existing
file untouched. -/
theorem ci_overwritten_despite_warning :
    (let r := generate_ci_from_diagram none ["esp32"] true
        ⟨some ⟨["esp32"], [], none⟩⟩ false
        (fun p => if p = "esp32" then
          some ⟨1, "Espressif Systems", "wokwi",
            [⟨"board-esp32-devkit-c-v4", "esp", 0, 0, []⟩,
             ⟨"wokwi-led", "led1", 0, 0, []⟩],
            [⟨"esp:TX", "$serialMonitor:RX", "", []⟩,
             ⟨"esp:RX", "$serialMonitor:TX", "", []⟩], []⟩
          else none)
     r.2 = true
     ∧ r.1 = some ⟨some ⟨["esp32"],
         [("esp32", ⟨[⟨"wokwi-led", "led1", 0, 0, []⟩], [], []⟩)], none⟩⟩
     ∧ r.1 ≠ some ⟨some ⟨["esp32"], [], none⟩⟩)
    ∧ save_json true false = ⟨false, true⟩
    ∧ generate_diagram_write true false = ⟨false, true⟩
    ∧ generate_launchpad_config "Blink" "examples/Blink" "https://store/"
        "https://repo" true false true false ["esp32"] none = .skippedExists := by
  refine ⟨⟨?_, ?_, ?_⟩, ?_, ?_, ?_⟩ <;> decide

/-! ### Theorems about the tab composition -/

theorem collectScan_nil (acc : List Panel) (errs : List String) :
    collectScan [] acc errs = (acc, errs) := by
  simp [collectScan]

theorem collectScan_wokwi (w : WokwiData) (rest : List DocNode) (acc : List Panel)
    (errs : List String) :
    collectScan (DocNode.wokwi w :: rest) acc errs =
      collectScan rest
        (acc ++ [make_panel (pyGetD (pyOr w.tab_label w.title)
          ("Wokwi " ++ toString (acc.length + 1))) [DocNode.wokwi w] acc.isEmpty])
        errs := by
  simp [collectScan]

theorem collectScan_target_nil_names (rest : List DocNode) (acc : List Panel)
    (errs : List String) :
    collectScan (DocNode.targetRef [] :: rest) acc errs = collectScan rest acc errs := by
  simp [collectScan]

theorem collectScan_target_no_content (a : String) (as : List String)
    (rest : List DocNode) (acc : List Panel) (errs : List String)
    (h : rest.dropWhile isTargetNode = []) :
    collectScan (DocNode.targetRef (a :: as) :: rest) acc errs =
      (acc, errs ++ [targetNoContentMsg a]) := by
  simp only [collectScan]
  rw [h]

theorem collectScan_target_content (a : String) (as : List String)
    (rest : List DocNode) (acc : List Panel) (errs : List String)
    (content : DocNode) (rest2 : List DocNode)
    (h : rest.dropWhile isTargetNode = content :: rest2) :
    collectScan (DocNode.targetRef (a :: as) :: rest) acc errs =
      collectScan rest2 (acc ++ [make_panel a [content] acc.isEmpty]) errs := by
  simp only [collectScan]
  rw [h]

theorem collectScan_literal (txt lang : String) (rest : List DocNode)
    (acc : List Panel) (errs : List String) :
    collectScan (DocNode.literalBlock txt lang :: rest) acc errs =
      collectScan rest
        (acc ++ [make_panel
          ("Code " ++ toString ((acc.filter (fun p => sStartsWith p.label "Code")).length + 1))
          [DocNode.literalBlock txt lang] acc.isEmpty])
        errs := by
  simp [collectScan]

theorem collectScan_other (rest : List DocNode) (acc : List Panel)
    (errs : List String) :
    collectScan (DocNode.other :: rest) acc errs = collectScan rest acc errs := by
  simp [collectScan]

theorem isEmpty_eq_decide (ps : List Panel) : ps.isEmpty = decide (ps.length = 0) := by
  cases ps <;> rfl

theorem firstActive_append (acc : List Panel) (lab : String) (cnt : List DocNode)
    (h : firstActive acc) :
    firstActive (acc ++ [make_panel lab cnt acc.isEmpty]) := by
  intro i hi
  rw [List.length_append] at hi
  simp only [List.length_singleton] at hi
  by_cases hlt : i < acc.length
  · rw [List.getElem_append_left hlt]
    exact h i hlt
  · have hi0 : i = acc.length := by omega
    subst hi0
    rw [List.getElem_append_right (Nat.le_refl _)]
    simp only [Nat.sub_self, List.getElem_singleton]
    show acc.isEmpty = decide (acc.length = 0)
    exact isEmpty_eq_decide acc

theorem collectScan_active (blocks : List DocNode) (acc : List Panel)
    (errs : List String) :
    firstActive acc → firstActive (collectScan blocks acc errs).1 := by
  induction blocks, acc, errs using collectScan.induct with
  | case1 acc errs =>
      intro h
      rw [collectScan_nil]
      exact h
  | case2 rest acc errs w n lab ih =>
      intro h
      rw [collectScan_wokwi]
      exact ih (firstActive_append _ _ _ h)
  | case3 rest acc errs ih =>
      intro h
      rw [collectScan_target_nil_names]
      exact ih h
  | case4 rest acc errs a as hdrop =>
      intro h
      rw [collectScan_target_no_content _ _ _ _ _ hdrop]
      exact h
  | case5 rest acc errs a as content rest2 hdrop ih =>
      intro h
      rw [collectScan_target_content _ _ _ _ _ _ _ hdrop]
      exact ih (firstActive_append _ _ _ h)
  | case6 rest acc errs txt lang n ih =>
      intro h
      rw [collectScan_literal]
      exact ih (firstActive_append _ _ _ h)
  | case7 rest acc errs ih =>
      intro h
      rw [collectScan_other]
      exact ih h

theorem validateOne_active (idx : Nat) (jpl : Option String) (p : Panel) :
    (validateOne idx jpl p).1.active = p.active := by
  unfold validateOne
  split <;> rfl

theorem collect_panels_active (children : List DocNode) (optPfx cfgPfx : Option String) :
    firstActive (collect_panels children optPfx cfgPfx).1 := by
  have hscan : firstActive (collectScan children [] []).1 :=
    collectScan_active children [] [] (by intro i hi; simp at hi)
  show firstActive (((collectScan children [] []).1.enum.map
    (fun ip => validateOne (ip.1 + 1) (localJsonPfx optPfx cfgPfx) ip.2)).map Prod.fst)
  intro i hi
  simp only [List.length_map, List.enum_length] at hi
  simp only [List.getElem_map, List.getElem_enum]
  rw [validateOne_active]
  exact hscan i hi

theorem countP_active_of_firstActive (ps : List Panel) (hne : ps ≠ [])
    (h : firstActive ps) : ps.countP (fun p => p.active) = 1 := by
  cases ps with
  | nil => exact absurd rfl hne
  | cons p tl =>
      have hp : p.active = true := by
        have h0 := h 0 (by simp)
        simpa using h0
      have htl : tl.countP (fun p => p.active) = 0 := by
        rw [List.countP_eq_zero]
        intro q hq
        obtain ⟨j, hj, rfl⟩ := List.mem_iff_getElem.mp hq
        have hj1 := h (j + 1) (by simpa using Nat.succ_lt_succ hj)
        simp only [List.getElem_cons_succ] at hj1
        simp [hj1]
      rw [List.countP_cons, htl, hp]
      rfl

theorem panelsWithIds_active (ps : List Panel) (ids : List String) (opts : TabsOptions)
    (h : firstActive ps) :
    firstActive (((ps.map (applyTabOptions opts)).zip ids).map
      (fun pp => { pp.1 with panel_id := some pp.2 })) := by
  intro i hi
  simp only [List.length_map, List.length_zip] at hi
  have hips : i < ps.length := lt_of_lt_of_le hi (min_le_left _ _)
  simp only [List.getElem_map, List.getElem_zip]
  exact h i hips

theorem wokwiTabsRun_one_active (children : List DocNode) (opts : TabsOptions)
    (cfgPfx : Option String) (serial : Nat) (tm : TabModel)
    (h : wokwiTabsRun children opts cfgPfx serial = .tabs tm) :
    tm.panels ≠ [] ∧ firstActive tm.panels
      ∧ tm.panels.countP (fun p => p.active) = 1 := by
  unfold wokwiTabsRun at h
  split at h
  · cases h
  · dsimp only at h
    split at h
    · rw [if_pos (by simp)] at h
      cases h
    · rename_i hpe1
      have hpne : (collect_panels children opts.json_pfx cfgPfx).1 ≠ [] := by
        intro hnil
        rw [hnil] at hpe1
        exact hpe1 rfl
      split at h
      · cases h
      · injection h with htm
        subst htm
        have hfa : firstActive
            ((((collect_panels children opts.json_pfx cfgPfx).1.map
              (applyTabOptions opts)).zip
              ((List.range ((collect_panels children opts.json_pfx cfgPfx).1.map
                (applyTabOptions opts)).length).map
                (fun i => "wokwi-tabs-" ++ toString serial ++ "-panel-" ++ toString i))).map
              (fun pp => { pp.1 with panel_id := some pp.2 })) :=
          panelsWithIds_active _ _ _ (collect_panels_active children opts.json_pfx cfgPfx)
        have hlenz : ((((collect_panels children opts.json_pfx cfgPfx).1.map
            (applyTabOptions opts)).zip
            ((List.range ((collect_panels children opts.json_pfx cfgPfx).1.map
              (applyTabOptions opts)).length).map
              (fun i => "wokwi-tabs-" ++ toString serial ++ "-panel-" ++ toString i))).map
            (fun pp => { pp.1 with panel_id := some pp.2 })).length
            = (collect_panels children opts.json_pfx cfgPfx).1.length := by
          simp [List.length_zip]
        have hne2 : (((((collect_panels children opts.json_pfx cfgPfx).1.map
            (applyTabOptions opts)).zip
            ((List.range ((collect_panels children opts.json_pfx cfgPfx).1.map
              (applyTabOptions opts)).length).map
              (fun i => "wokwi-tabs-" ++ toString serial ++ "-panel-" ++ toString i))).map
            (fun pp => { pp.1 with panel_id := some pp.2 }))) ≠ [] := by
          intro hnil
          have hl := congrArg List.length hnil
          rw [hlenz] at hl
          exact hpne (List.length_eq_zero.mp (by simpa using hl))
        refine ⟨?_, ?_, ?_⟩
        · exact hne2
        · exact hfa
        · exact countP_active_of_firstActive _ hne2 hfa

theorem wokwi_example_one_active (targets inoFiles : List String)
    (inoContent : Option String) (storePfx : Option String)
    (examplePath wdt hgt ldg : String) (fs : Bool) (ps : List Panel)
    (hts : targets ≠ [])
    (hok : inoFiles = [] ∨ inoContent.isSome = true)
    (hrun : wokwi_example_run targets inoFiles inoContent storePfx examplePath
      wdt hgt ldg fs = .ok ps) :
    ps ≠ [] ∧ firstActive ps ∧ ps.countP (fun p => p.active) = 1 := by
  unfold wokwi_example_run at hrun
  rw [if_neg hts] at hrun
  injection hrun with hps
  subst hps
  unfold wokwi_example_panels
  cases inoFiles with
  | nil =>
      dsimp only
      rw [List.nil_append]
      have hne : (targets.enum.map (fun it =>
          (⟨sToUpper it.2, decide (it.1 = 0) && (List.isEmpty ([] : List String)),
            [DocNode.wokwi
              { tab_label := some (sToUpper it.2)
                title := some ("Wokwi simulation — " ++ sToUpper it.2)
                firmware := make_url (make_url storePfx (some (examplePath ++ "/.gen/")))
                  (some (it.2 ++ ".bin"))
                diagram := make_url (make_url storePfx (some (examplePath ++ "/.gen/")))
                  (some ("diagram-" ++ it.2 ++ ".json"))
                width := some wdt
                height := some hgt
                loading := some ldg
                allowfullscreen := fs
                classes := ["wokwi-embed", "from-example"]
                suppress_header := true
                from_toml := false
                toml_url := none }], none⟩ : Panel))) ≠ [] := by
        cases targets with
        | nil => exact absurd rfl hts
        | cons t ts => simp
      have hfa : firstActive (targets.enum.map (fun it =>
          (⟨sToUpper it.2, decide (it.1 = 0) && (List.isEmpty ([] : List String)),
            [DocNode.wokwi
              { tab_label := some (sToUpper it.2)
                title := some ("Wokwi simulation — " ++ sToUpper it.2)
                firmware := make_url (make_url storePfx (some (examplePath ++ "/.gen/")))
                  (some (it.2 ++ ".bin"))
                diagram := make_url (make_url storePfx (some (examplePath ++ "/.gen/")))
                  (some ("diagram-" ++ it.2 ++ ".json"))
                width := some wdt
                height := some hgt
                loading := some ldg
                allowfullscreen := fs
                classes := ["wokwi-embed", "from-example"]
                suppress_header := true
                from_toml := false
                toml_url := none }], none⟩ : Panel))) := by
        intro i hi
        simp only [List.getElem_map, List.getElem_enum]
        simp
      exact ⟨hne, hfa, countP_active_of_firstActive _ hne hfa⟩
  | cons f0 restIno =>
      have hsome : inoContent.isSome = true := by
        rcases hok with h | h
        · cases h
        · exact h
      cases hic : inoContent with
      | none => rw [hic] at hsome; simp at hsome
      | some content =>
          subst hic
          dsimp only
          rw [List.singleton_append]
          refine ⟨by simp, ?_, ?_⟩
          · intro i hi
            cases i with
            | zero => rfl
            | succ j =>
                simp only [List.getElem_cons_succ, List.getElem_map,
                  List.getElem_enum]
                simp
          · rw [List.countP_cons]
            have h0 : (List.countP (fun p => p.active)
                (targets.enum.map (fun it =>
                  (⟨sToUpper it.2, decide (it.1 = 0)
                      && (List.isEmpty (f0 :: restIno)),
                    [DocNode.wokwi
                      { tab_label := some (sToUpper it.2)
                        title := some ("Wokwi simulation — " ++ sToUpper it.2)
                        firmware := make_url (make_url storePfx
                          (some (examplePath ++ "/.gen/"))) (some (it.2 ++ ".bin"))
                        diagram := make_url (make_url storePfx
                          (some (examplePath ++ "/.gen/")))
                          (some ("diagram-" ++ it.2 ++ ".json"))
                        width := some wdt
                        height := some hgt
                        loading := some ldg
                        allowfullscreen := fs
                        classes := ["wokwi-embed", "from-example"]
                        suppress_header := true
                        from_toml := false
                        toml_url := none }], none⟩ : Panel)))) = 0 := by
              rw [List.countP_eq_zero]
              intro q hq
              obtain ⟨it, -, rfl⟩ := List.mem_map.mp hq
              simp
            rw [h0]
            rfl

/-- C5 (amended): every panel list composed by the tabs directive has
exactly one active panel, the first in final order; the manifest-derived
example variant also has exactly one active panel — provided that, when a
source file is listed, its content is readable.  (When a listed source
file cannot be read, the code skips the source tab but still leaves every
target panel inactive; see the counterexample.) -/
theorem composed_panels_exactly_one_active
    (children : List DocNode) (opts : TabsOptions) (cfgPfx : Option String)
    (serial : Nat) (tm : TabModel)
    (targets inoFiles : List String) (inoContent : Option String)
    (storePfx : Option String) (examplePath wdt hgt ldg : String) (fs : Bool)
    (ps : List Panel)
    (htabs : wokwiTabsRun children opts cfgPfx serial = .tabs tm)
    (hts : targets ≠ [])
    (hok : inoFiles = [] ∨ inoContent.isSome = true)
    (hex : wokwi_example_run targets inoFiles inoContent storePfx examplePath
      wdt hgt ldg fs = .ok ps) :
    (tm.panels ≠ [] ∧ firstActive tm.panels
      ∧ tm.panels.countP (fun p => p.active) = 1)
    ∧ (ps ≠ [] ∧ firstActive ps ∧ ps.countP (fun p => p.active) = 1) :=
  ⟨wokwiTabsRun_one_active children opts cfgPfx serial tm htabs,
   wokwi_example_one_active targets inoFiles inoContent storePfx examplePath
     wdt hgt ldg fs ps hts hok hex⟩

/-- C5 counterexample: in the manifest-derived variant, when an `.ino`
file is found but cannot be read, the source tab is skipped yet every
target panel stays inactive (`active = i == 0 and not ino_files`), so the
composed one-panel list has zero active panels. -/
theorem example_inactive_counterexample :
    (wokwi_example_run ["esp32"] ["Blink.ino"] none (some "https://store/") "ex"
        "100%" "500px" "lazy" true).map
      (fun ps => (ps.length, ps.countP (fun p => p.active))) = .ok (1, 0) := rfl

/-- C5 witness: a one-simulation tabs run and a no-source example run,
each with exactly one active panel. -/
theorem composed_panels_exactly_one_active_witness :
    (⟨"wokwi-tabs-0", ["Wokwi 1"], ["wokwi-tabs-0-panel-0"],
      [⟨"Wokwi 1", true,
        [DocNode.wokwi { blankWokwi with firmware := some "fw.bin", suppress_header := true }],
        some "wokwi-tabs-0-panel-0"⟩]⟩ : TabModel).panels.countP
      (fun p => p.active) = 1
    ∧ (wokwi_example_run ["esp32"] [] none (some "https://store/") "ex" "100%"
        "500px" "lazy" true).map (fun ps => ps.countP (fun p => p.active))
      = Except.ok 1 := by
  have hscan : collectScan
      [DocNode.wokwi { blankWokwi with firmware := some "fw.bin" }] [] []
      = ([make_panel "Wokwi 1"
          [DocNode.wokwi { blankWokwi with firmware := some "fw.bin" }] true], []) := by
    rw [collectScan_wokwi, collectScan_nil]
    rfl
  have hcp : collect_panels
      [DocNode.wokwi { blankWokwi with firmware := some "fw.bin" }]
      noTabsOptions.json_pfx none
      = ([⟨"Wokwi 1",
          true,
          [DocNode.wokwi { blankWokwi with firmware := some "fw.bin", suppress_header := true }], none⟩], []) := by
    unfold collect_panels
    rw [hscan]
    decide
  have htabs : wokwiTabsRun
      [DocNode.wokwi { blankWokwi with firmware := some "fw.bin" }]
      noTabsOptions none 0
      = .tabs ⟨"wokwi-tabs-0", ["Wokwi 1"], ["wokwi-tabs-0-panel-0"],
        [⟨"Wokwi 1", true,
          [DocNode.wokwi { blankWokwi with firmware := some "fw.bin", suppress_header := true }],
          some "wokwi-tabs-0-panel-0"⟩]⟩ := by
    unfold wokwiTabsRun
    rw [hcp]
    rfl
  have hex : wokwi_example_run ["esp32"] [] none (some "https://store/") "ex" "100%"
      "500px" "lazy" true = .ok _ := rfl
  have h := composed_panels_exactly_one_active _ _ _ _ _ _ _ _ _ _ _ _ _ _ _
    htabs (by decide) (Or.inl rfl) hex
  refine ⟨h.1.2.2, ?_⟩
  rw [hex]
  exact congrArg Except.ok h.2.2.2

theorem validateOne_snd (idx : Nat) (jpl : Option String) (p : Panel) :
    (validateOne idx jpl p).2 =
      if missingFirmware p then some (firmwareErrMsg idx) else none := by
  unfold validateOne missingFirmware
  split <;> rfl

/-- C4: tab composition validation is all-or-nothing — the validation pass
produces exactly one error, identified by 1-based position, for each panel
wrapping a single Simulation unit lacking a firmware reference, collecting
all of them; and whenever the collected error list is non-empty, `run`
returns the full error list (plus the no-children error when no panel was
built) and no panel list. -/
theorem tabs_validation_all_or_nothing
    (panels : List Panel) (jpl : Option String)
    (children : List DocNode) (opts : TabsOptions) (cfgPfx : Option String)
    (serial : Nat)
    (hne : children.isEmpty = false)
    (herr : (collect_panels children opts.json_pfx cfgPfx).2 ≠ []) :
    ((panels.enum.map (fun ip => validateOne (ip.1 + 1) jpl ip.2)).filterMap Prod.snd
      = panels.enum.filterMap (fun ip =>
          if missingFirmware ip.2 then some (firmwareErrMsg (ip.1 + 1)) else none))
    ∧ wokwiTabsRun children opts cfgPfx serial =
        .errs (if (collect_panels children opts.json_pfx cfgPfx).1.isEmpty
          then (collect_panels children opts.json_pfx cfgPfx).2 ++ [noChildMsg]
          else (collect_panels children opts.json_pfx cfgPfx).2) := by
  constructor
  · rw [List.filterMap_map]
    have hfun : (Prod.snd ∘ fun ip : Nat × Panel => validateOne (ip.1 + 1) jpl ip.2)
        = fun ip : Nat × Panel =>
            if missingFirmware ip.2 then some (firmwareErrMsg (ip.1 + 1)) else none := by
      funext ip
      exact validateOne_snd (ip.1 + 1) jpl ip.2
    rw [hfun]
  · unfold wokwiTabsRun
    rw [if_neg (by simp [hne])]
    dsimp only
    split
    · rw [if_pos (by simp)]
    · rfl

/-- C4 witness: two Simulation units both missing a firmware reference
yield exactly two errors and no panels. -/
theorem tabs_validation_all_or_nothing_witness :
    wokwiTabsRun [DocNode.wokwi blankWokwi, DocNode.wokwi blankWokwi]
      noTabsOptions none 0 = .errs [firmwareErrMsg 1, firmwareErrMsg 2] := by
  have hscan : collectScan [DocNode.wokwi blankWokwi, DocNode.wokwi blankWokwi] [] []
      = ([make_panel "Wokwi 1" [DocNode.wokwi blankWokwi] true,
          make_panel "Wokwi 2" [DocNode.wokwi blankWokwi] false], []) := by
    rw [collectScan_wokwi, collectScan_wokwi, collectScan_nil]
    rfl
  have hcp : collect_panels [DocNode.wokwi blankWokwi, DocNode.wokwi blankWokwi]
      noTabsOptions.json_pfx none
      = ([⟨"Wokwi 1", true,
          [DocNode.wokwi { blankWokwi with suppress_header := true }], none⟩,
          ⟨"Wokwi 2", false,
          [DocNode.wokwi { blankWokwi with suppress_header := true }], none⟩],
         [firmwareErrMsg 1, firmwareErrMsg 2]) := by
    unfold collect_panels
    rw [hscan]
    rfl
  have h := (tabs_validation_all_or_nothing [] none
    [DocNode.wokwi blankWokwi, DocNode.wokwi blankWokwi] noTabsOptions none 0
    (by decide) (by rw [hcp]; decide)).2
  rw [h, hcp]
  rfl

theorem dropWhile_targets_append (ts l : List DocNode)
    (h : ∀ t ∈ ts, isTargetNode t = true) :
    (ts ++ l).dropWhile isTargetNode = l.dropWhile isTargetNode := by
  induction ts with
  | nil => rfl
  | cons a ts ih =>
      rw [List.cons_append, List.dropWhile_cons, h a (List.mem_cons_self a ts)]
      rw [if_pos rfl]
      exact ih (fun t ht => h t (List.mem_cons_of_mem _ ht))

/-- C6 (amended): a run of consecutive reference nodes followed by a
non-reference content node produces exactly one panel wrapping that
content node, labeled by the FIRST reference name of the run (the scan
takes `cur["names"][0]` and merely skips the following reference nodes);
a reference run with no following content node produces the
`has no following content node` error naming that first reference, and
the scan stops there. -/
theorem reference_run_pairing (a : String) (as : List String) (ts : List DocNode)
    (content : DocNode) (rest : List DocNode) (acc : List Panel) (errs : List String)
    (hts : ∀ t ∈ ts, isTargetNode t = true)
    (hcontent : isTargetNode content = false) :
    collectScan (DocNode.targetRef (a :: as) :: (ts ++ content :: rest)) acc errs
      = collectScan rest (acc ++ [make_panel a [content] acc.isEmpty]) errs
    ∧ collectScan (DocNode.targetRef (a :: as) :: ts) acc errs
      = (acc, errs ++ [targetNoContentMsg a]) := by
  constructor
  · apply collectScan_target_content
    rw [dropWhile_targets_append ts (content :: rest) hts, List.dropWhile_cons,
      hcontent]
    simp
  · apply collectScan_target_no_content
    rw [List.dropWhile_eq_nil_iff]
    exact hts

/-- C6 counterexample: two references before a code block produce a panel
labeled by the first reference name "a", not the last one "b". -/
theorem reference_label_counterexample :
    ((collectScan [DocNode.targetRef ["a"], DocNode.targetRef ["b"],
        DocNode.literalBlock "code" "c"] [] []).1.map (fun p => p.label)) = ["a"]
    ∧ (["a"] : List String) ≠ ["b"] := by
  constructor
  · rw [collectScan_target_content "a" []
      [DocNode.targetRef ["b"], DocNode.literalBlock "code" "c"] [] []
      (DocNode.literalBlock "code" "c") [] rfl, collectScan_nil]
    rfl
  · decide

/-- C6 witness: the pairing and the no-content error at a concrete
two-reference run. -/
theorem reference_run_pairing_witness :
    collectScan [DocNode.targetRef ["a"], DocNode.targetRef ["b"],
        DocNode.literalBlock "x" "y"] [] []
      = collectScan []
          ([] ++ [make_panel "a" [DocNode.literalBlock "x" "y"]
            ([] : List Panel).isEmpty]) []
    ∧ collectScan [DocNode.targetRef ["a"], DocNode.targetRef ["b"]] [] []
      = ([], [] ++ [targetNoContentMsg "a"]) :=
  reference_run_pairing "a" [] [DocNode.targetRef ["b"]]
    (DocNode.literalBlock "x" "y") [] [] [] (by decide) (by decide)

/-! ### Theorems about the TOML directive -/

/-- C10 (amended): whenever the selected project exists, has a non-empty
`chipsets` array, and the download server is configured, the TOML tab
producer emits exactly two Simulation units labeled `ESP32` and `ESP32-S3`
with the hard-coded firmware and diagram URLs — independently of the
contents of the project's `chipsets` array and of its `image.<chipset>` /
`diagram.<chipset>` entries. -/
theorem toml_tabs_hardcoded (tomlArg : String) (data : TomlDoc) (project : String)
    (proj : TomlProject) (server : String) (wdt hgt ldg : String) (fs : Bool)
    (hproj : data.projects.lookup project = some proj)
    (hpne : project ≠ "") (hs : server ≠ "")
    (hcs : proj.chipsets ≠ []) :
    (wokwiTomlRun tomlArg data (some project) none (some server) wdt hgt ldg fs).map
      (fun ns => ns.map (fun n => (n.tab_label, n.firmware, n.diagram)))
      = .ok [(some "ESP32", some tomlHardcodedFirmware, some tomlHardcodedDiagram),
             (some "ESP32-S3", some tomlHardcodedFirmware,
              some tomlHardcodedDiagram)] := by
  unfold wokwiTomlRun
  have h1 : truthyOpt (some project) = some project := by
    simp [truthyOpt, pyFalsy, hpne]
  have h2 : truthyOpt (some server) = some server := by
    simp [truthyOpt, pyFalsy, hs]
  rw [h1, h2]
  dsimp only
  rw [hproj]
  dsimp only
  rw [if_neg hcs]
  rfl

/-- C10 counterexample: a TOML project whose `chipsets` array is empty
produces an error, not the two hard-coded Simulation units, so the output
is not independent of the chipsets array for every input. -/
theorem toml_empty_chipsets_counterexample :
    wokwiTomlRun "launchpad.toml" ⟨[("P", ⟨[], [], []⟩)], none⟩ (some "P") none
        (some "https://dl/") "100%" "500px" "lazy" true
      = .error ("wokwi-toml: project " ++ sq "P" ++ " has no "
          ++ sq "chipsets" ++ " array.") := rfl

/-- C10 witness: a project listing chipsets `ESP32`/`ESP32-C3` still gets
tabs `ESP32`/`ESP32-S3` with the hard-coded URLs. -/
theorem toml_tabs_hardcoded_witness :
    (wokwiTomlRun "launchpad.toml"
        ⟨[("Blink", ⟨["ESP32", "ESP32-C3"], [("image.esp32", "x.bin")], []⟩)],
         some "https://base/"⟩ (some "Blink") none
        (some "https://dl/") "100%" "500px" "lazy" true).map
      (fun ns => ns.map (fun n => (n.tab_label, n.firmware, n.diagram)))
      = .ok [(some "ESP32", some tomlHardcodedFirmware, some tomlHardcodedDiagram),
             (some "ESP32-S3", some tomlHardcodedFirmware,
              some tomlHardcodedDiagram)] :=
  toml_tabs_hardcoded "launchpad.toml"
    ⟨[("Blink", ⟨["ESP32", "ESP32-C3"], [("image.esp32", "x.bin")], []⟩)],
     some "https://base/"⟩ "Blink"
    ⟨["ESP32", "ESP32-C3"], [("image.esp32", "x.bin")], []⟩ "https://dl/"
    "100%" "500px" "lazy" true (by decide) (by decide) (by decide) (by decide)

end EspDocs
